import Mathlib

/-!
Verification of the fallback search resolution protocol of the
`Ollama_AI_News_Tools` repository (files `app.py` and `publish4zenn.py`).

The embedding models the decoded JSON payloads that flow through the
normalizer, the tiered resolver and the deduplicating collector.  Python
dictionaries are modelled as association lists with distinct keys (the
payloads come from `resp.json()`, whose dictionaries have unique keys),
and Python truthiness is modelled explicitly by `truthy`.  Network and
SDK interactions are modelled as oracles mapping each concrete attempt
(the URL, HTTP method and parameter shape that `requests` would send) to
an outcome: a raised exception, or a status code with a body.
-/

namespace NewsTools

/-- Decoded JSON values as produced by `resp.json()`; `null` also stands
for Python `None` (e.g. the result of `dict.get` on a missing key). -/
inductive Json where
  | null : Json
  | bool (b : Bool) : Json
  | num (n : Int) : Json
  | str (s : String) : Json
  | list (items : List Json) : Json
  | obj (fields : List (String × Json)) : Json

mutual

/-- Structural equality of decoded values, modelling Python `==` and
set membership on the values that occur in this protocol. -/
def Json.beq : Json → Json → Bool
  | .null, .null => true
  | .bool a, .bool b => a == b
  | .num a, .num b => a == b
  | .str a, .str b => a == b
  | .list a, .list b => Json.beqList a b
  | .obj a, .obj b => Json.beqObj a b
  | _, _ => false

/-- Elementwise `Json.beq` on lists. -/
def Json.beqList : List Json → List Json → Bool
  | [], [] => true
  | x :: xs, y :: ys => Json.beq x y && Json.beqList xs ys
  | _, _ => false

/-- Elementwise `Json.beq` on association lists. -/
def Json.beqObj : List (String × Json) → List (String × Json) → Bool
  | [], [] => true
  | (k1, v1) :: xs, (k2, v2) :: ys => k1 == k2 && Json.beq v1 v2 && Json.beqObj xs ys
  | _, _ => false

end

/-- Python truthiness of a decoded value: `None`, `False`, `0`, `""`,
`[]` and empty dicts are falsy, everything else is truthy. -/
def truthy : Json → Bool
  | .null => false
  | .bool b => b
  | .num n => n != 0
  | .str s => s ≠ ""
  | .list items => !items.isEmpty
  | .obj fields => !fields.isEmpty

/-- Python `d.get(k)`: the value stored under `k`, `None` when absent.
Dictionaries are modelled as association lists with unique keys, so the
first match is the binding. -/
def dictGet (o : List (String × Json)) (k : String) : Json :=
  match o with
  | [] => .null
  | (k', v) :: rest => if k' = k then v else dictGet rest k

/-- Python `a or b` on decoded values: `a` when truthy, else `b`. -/
def pyOr (a b : Json) : Json := if truthy a then a else b

/-- Python `next((v for v in data.values() if isinstance(v, list)), [])`:
the first value (in insertion order) that is a list, else `[]`. -/
def firstListValue : List (String × Json) → List Json
  | [] => []
  | (_, .list l) :: _ => l
  | _ :: rest => firstListValue rest

/-- Candidate-sequence selection of `app.py`'s
`UniversalSearchClient._normalize_search` (app.py lines 352-362):
a list payload is taken as is; a dict payload yields its `results`
member when that is a list, else its `data` member when that is a list,
else the first list-valued member; anything else yields `[]`. -/
def appSelectItems : Json → List Json
  | .list l => l
  | .obj o =>
    match dictGet o "results" with
    | .list l => l
    | _ =>
      match dictGet o "data" with
      | .list l => l
      | _ => firstListValue o
  | _ => []

/-- Candidate-sequence selection of `publish4zenn.py`'s
`UniversalSearchClient._normalize_search` (publish4zenn.py lines
148-156): like `appSelectItems` but with no special case for a `data`
member. -/
def zennSelectItems : Json → List Json
  | .list l => l
  | .obj o =>
    match dictGet o "results" with
    | .list l => l
    | _ => firstListValue o
  | _ => []

/-- The per-record loop shared verbatim by both `_normalize_search`
implementations (app.py lines 363-372, publish4zenn.py lines 157-166):
non-dict candidates are skipped; `url` is `it.get("url") or
it.get("link") or ""`, `title` is `it.get("title") or it.get("name") or
""`, `content` is `it.get("content") or it.get("snippet") or
it.get("text") or ""`; the record is kept iff `url` is truthy. -/
def normRecords : List Json → List Json
  | [] => []
  | it :: rest =>
    match it with
    | .obj o =>
      let url := pyOr (dictGet o "url") (pyOr (dictGet o "link") (.str ""))
      let title := pyOr (dictGet o "title") (pyOr (dictGet o "name") (.str ""))
      let content :=
        pyOr (dictGet o "content") (pyOr (dictGet o "snippet") (pyOr (dictGet o "text") (.str "")))
      if truthy url then
        .obj [("url", url), ("title", title), ("content", content)] :: normRecords rest
      else
        normRecords rest
    | _ => normRecords rest

/-- `UniversalSearchClient._normalize_search` of `app.py` (lines 350-372). -/
def appNormalize (data : Json) : List Json :=
  normRecords (appSelectItems data)

/-- `UniversalSearchClient._normalize_search` of `publish4zenn.py`
(lines 146-166). -/
def zennNormalize (data : Json) : List Json :=
  normRecords (zennSelectItems data)

/-- Body of an HTTP 200 response as seen after `resp.json()`: either a
decoded value, or `bodyBad` when `resp.json()` raises (malformed body). -/
inductive JsonBody where
  | ok (j : Json) : JsonBody
  | bad : JsonBody

/-- Outcome of one network call: `exn` when `requests` raises (timeout,
connection error, ...), else a status code with a body. -/
inductive HttpResult where
  | exn : HttpResult
  | resp (status : Nat) (body : JsonBody) : HttpResult

/-- HTTP method of an attempt. -/
inductive Method where
  | get : Method
  | post : Method

/-- One concrete request that `_http_search_once` can issue: the URL,
the method and the query-string/JSON parameters sent with it.  The
network is modelled as an oracle `Attempt → HttpResult`. -/
structure Attempt where
  url : String
  method : Method
  params : List (String × Json)

/-- The four GET parameter shapes of `_http_search_once` (app.py lines
159-164), in source order. -/
def getParamShapes (query : String) (maxResults : Nat) : List (List (String × Json)) :=
  [ [("q", .str query), ("k", .num maxResults)],
    [("query", .str query), ("k", .num maxResults)],
    [("q", .str query), ("limit", .num maxResults)],
    [("query", .str query), ("max_results", .num maxResults)] ]

/-- The five POST payload shapes of `_http_search_once` (app.py lines
178-184), in source order. -/
def postParamShapes (query : String) (maxResults : Nat) : List (List (String × Json)) :=
  [ [("q", .str query), ("k", .num maxResults)],
    [("query", .str query), ("k", .num maxResults)],
    [("q", .str query), ("limit", .num maxResults)],
    [("query", .str query), ("max_results", .num maxResults)],
    [("q", .str query), ("limit", .num maxResults), ("max_results", .num maxResults)] ]

/-- One iteration of the loops of `_http_search_once` (app.py lines
165-176 and 185-196): an exception or a non-200 status or a payload
that normalizes to no record yields nothing and the loop continues; a
200 status whose body normalizes to at least one record is returned.
A body that fails to decode is replaced by an empty dict
(`data = {}`, line 171/191).  Note there is no special treatment of
401/402/403/429 here: any non-200 status just falls through. -/
def attemptOnce (oracle : Attempt → HttpResult) (a : Attempt) : Option (List Json) :=
  match oracle a with
  | .exn => none
  | .resp status body =>
    if status = 200 then
      let data : Json := match body with | .ok j => j | .bad => .obj []
      let items := appNormalize data
      if items.isEmpty then none else some items
    else none

/-- First `some` produced by `f` along a list, modelling an early
`return` from a `for` loop. -/
def firstSome {α β : Type} (f : α → Option β) : List α → Option β
  | [] => none
  | x :: xs =>
    match f x with
    | some r => some r
    | none => firstSome f xs

/-- `UniversalSearchClient._http_search_once` (app.py lines 157-197):
the four GET shapes in order, then the five POST shapes in order,
returning the first non-empty normalized result. -/
def httpSearchOnce (oracle : Attempt → HttpResult) (url query : String)
    (maxResults : Nat) : Option (List Json) :=
  match firstSome (fun ps => attemptOnce oracle ⟨url, .get, ps⟩) (getParamShapes query maxResults) with
  | some items => some items
  | none => firstSome (fun ps => attemptOnce oracle ⟨url, .post, ps⟩) (postParamShapes query maxResults)

/-- The endpoint configuration assembled in `__init__` (app.py lines
95-112): an optional fixed search URL, the base-URL candidates and the
path suffixes. -/
structure HttpConfig where
  fixedSearchUrl : Option String
  baseCandidates : List String
  searchPaths : List String

/-- The hard-coded path suffixes (app.py lines 106-112). -/
def defaultSearchPaths : List String :=
  [ "/web/search", "/api/web/search",
    "/web_search", "/api/web_search",
    "/search", "/api/search",
    "/v1/web/search", "/api/v1/web/search",
    "/v1/search", "/api/v1/search" ]

/-- The hard-coded base-URL candidates appended after any environment
override (app.py lines 100-105). -/
def defaultBaseCandidates : List String :=
  [ "https://api.ollama.com",
    "https://api.ollama.ai",
    "https://cloud.ollama.com",
    "http://localhost:11434" ]

/-- Python `s.rstrip("/")`: drop every trailing slash. -/
def rstripSlashes (s : String) : String :=
  String.mk ((s.data.reverse.dropWhile (· = '/')).reverse)

/-- Python truthiness of an `Optional[List]`: `None` and `[]` are
falsy; models every `if r:` / `if res:` test on adapter results. -/
def optTruthy : Option (List Json) → Bool
  | none => false
  | some l => !l.isEmpty

/-- Keep an adapter result only when truthy, modelling `if r: return r`
inside a loop. -/
def keepTruthy (r : Option (List Json)) : Option (List Json) :=
  if optTruthy r then r else none

/-- `UniversalSearchClient._try_ollama_http` of `app.py` (lines
142-155): the fixed URL first when configured, then every base
candidate joined with every path suffix, returning the first truthy
result of `_http_search_once`. -/
def tryOllamaHttp (oracle : Attempt → HttpResult) (cfg : HttpConfig)
    (query : String) (maxResults : Nat) : Option (List Json) :=
  let fixedTry : Option (List Json) :=
    match cfg.fixedSearchUrl with
    | some u => keepTruthy (httpSearchOnce oracle u query maxResults)
    | none => none
  match fixedTry with
  | some r => some r
  | none =>
    firstSome (fun url => keepTruthy (httpSearchOnce oracle url query maxResults))
      (cfg.baseCandidates.flatMap (fun b => cfg.searchPaths.map (fun p => rstripSlashes b ++ p)))

/-- One item of an SDK response object carrying `results`: the values of
`getattr(it, "url", "")`, `getattr(it, "title", "")` and
`getattr(it, "content", "")` (app.py lines 128-131). -/
structure SdkItem where
  url : Json
  title : Json
  content : Json

/-- Outcome of the local-SDK tier's single call (app.py lines 120-139):
the capability may be absent (`noClient`), the call may raise (`exn`),
the response may carry a `results` attribute, be a plain dict or list
(`value`), or be anything else (`other`). -/
inductive SdkResponse where
  | noClient : SdkResponse
  | exn : SdkResponse
  | resultsAttr (items : List SdkItem) : SdkResponse
  | value (j : Json) : SdkResponse
  | other : SdkResponse

/-- The normalization of a `results`-attribute response (app.py lines
127-134): each item keeps `url`/`title`/`content` defaulted to `""`,
and is appended only when `url` is truthy. -/
def sdkNormalizeItems : List SdkItem → List Json
  | [] => []
  | it :: rest =>
    let url := pyOr it.url (.str "")
    let title := pyOr it.title (.str "")
    let content := pyOr it.content (.str "")
    if truthy url then
      .obj [("url", url), ("title", title), ("content", content)] :: sdkNormalizeItems rest
    else
      sdkNormalizeItems rest

/-- `UniversalSearchClient._try_ollama_sdk` of `app.py` (lines
120-139). -/
def tryOllamaSdk : SdkResponse → Option (List Json)
  | .noClient => none
  | .exn => none
  | .resultsAttr items => some (sdkNormalizeItems items)
  | .value j => some (appNormalize j)
  | .other => none

/-- `UniversalSearchClient.search` of `app.py` (lines 321-347): the
local-SDK tier, then the direct-HTTP tier; the first truthy result is
returned sliced with `[:max_results]`; tiers 3 and 4 are commented out
in the source, so exhaustion returns `[]`. -/
def appSearch (sdkR : SdkResponse) (oracle : Attempt → HttpResult)
    (cfg : HttpConfig) (query : String) (maxResults : Nat) : List Json :=
  let r1 := tryOllamaSdk sdkR
  if optTruthy r1 then (r1.getD []).take maxResults
  else
    let r2 := tryOllamaHttp oracle cfg query maxResults
    if optTruthy r2 then (r2.getD []).take maxResults
    else []

/-- Field access `r.get(k)` on a collected record; the records reaching
the collector are dicts produced by the normalizer. -/
def recGet (r : Json) (k : String) : Json :=
  match r with
  | .obj o => dictGet o k
  | _ => .null

/-- The record rebuilt by the collector loop when a url is first seen
(app.py lines 409-411): `title` and `content` defaulted to `""`, keys
in the order `title`, `url`, `content`. -/
def collectRebuild (r : Json) : Json :=
  .obj [ ("title", pyOr (recGet r "title") (.str "")),
         ("url", recGet r "url"),
         ("content", pyOr (recGet r "content") (.str "")) ]

/-- The deduplication loop of `web_search_and_fetch` (app.py lines
402-412, identical in publish4zenn.py lines 196-206): records whose
`url` is falsy or already in `seen` are skipped, others are appended
rebuilt and their url is added to `seen`.  Python's `set` membership is
modelled by structural equality `Json.beq`. -/
def collectGo (seen : List Json) : List Json → List Json
  | [] => []
  | r :: rest =>
    if !truthy (recGet r "url") || seen.any (fun x => Json.beq x (recGet r "url")) then
      collectGo seen rest
    else
      collectRebuild r :: collectGo (recGet r "url" :: seen) rest

/-- The deduplicating collector: the loop of `web_search_and_fetch`
started with an empty `seen` set.  Note it has no result-count
parameter: it never truncates. -/
def collect (results : List Json) : List Json :=
  collectGo [] results

/-- `web_search_and_fetch` of `app.py` (lines 393-414): resolve, then
deduplicate. -/
def appWebSearchAndFetch (sdkR : SdkResponse) (oracle : Attempt → HttpResult)
    (cfg : HttpConfig) (query : String) (maxResults : Nat) : List Json :=
  collect (appSearch sdkR oracle cfg query maxResults)

/-- `UniversalSearchClient._try_ollama_http` of `publish4zenn.py`
(lines 95-118): a single POST to the fixed URL; on 200 the decoded body
is normalized and sliced with `[:max_results]`, returned only when
non-empty; a body that fails to decode raises inside the `try` and
yields `None`; every non-200 status — including the explicit
401/402/403/429 early return of line 114-115 — yields `None`. -/
def zennTryHttp (r : HttpResult) (maxResults : Nat) : Option (List Json) :=
  match r with
  | .exn => none
  | .resp status body =>
    if status = 200 then
      match body with
      | .ok j =>
        let items := (zennNormalize j).take maxResults
        if items.isEmpty then none else some items
      | .bad => none
    else none

/-- Outcome of `ollama.web_search(query)` in `publish4zenn.py`: a raised
exception or a decoded value handed to `_normalize_search`. -/
inductive ZennSdkResponse where
  | exn : ZennSdkResponse
  | value (j : Json) : ZennSdkResponse

/-- `UniversalSearchClient._try_ollama_sdk` of `publish4zenn.py` (lines
121-132): normalize the response, slice with `[:max_results]`, return
only when non-empty; an exception yields `None`. -/
def zennTrySdk : ZennSdkResponse → Nat → Option (List Json)
  | .exn, _ => none
  | .value j, maxResults =>
    let items := (zennNormalize j).take maxResults
    if items.isEmpty then none else some items

/-- `UniversalSearchClient.search` of `publish4zenn.py` (lines
135-143): the REST tier first, then the SDK tier; the first truthy
result is returned as is; exhaustion returns `[]`. -/
def zennSearch (httpR : HttpResult) (sdkR : ZennSdkResponse) (maxResults : Nat) : List Json :=
  let r1 := zennTryHttp httpR maxResults
  if optTruthy r1 then r1.getD []
  else
    let r2 := zennTrySdk sdkR maxResults
    if optTruthy r2 then r2.getD []
    else []

/-- `web_search_and_fetch` of `publish4zenn.py` (lines 187-208):
resolve, then deduplicate with the same collector loop. -/
def zennWebSearchAndFetch (httpR : HttpResult) (sdkR : ZennSdkResponse)
    (maxResults : Nat) : List Json :=
  collect (zennSearch httpR sdkR maxResults)

/-- A decoded value that is a keyed record (Python dict). -/
def Json.isObj : Json → Bool
  | .obj _ => true
  | _ => false

/-- A decoded value that is a string. -/
def Json.isStr : Json → Bool
  | .str _ => true
  | _ => false

/-- A decoded value that is an ordered sequence (Python list). -/
def Json.isList : Json → Bool
  | .list _ => true
  | _ => false

/-- The elements of a list value, `[]` for anything else. -/
def Json.asList : Json → List Json
  | .list l => l
  | _ => []

/-- The characters of a string value, `""` for anything else. -/
def jstr : Json → String
  | .str s => s
  | _ => ""

/-- The string stored under `k`, with a missing key read as `""`. -/
def strField (o : List (String × Json)) (k : String) : String :=
  jstr (dictGet o k)

/-- First non-empty string of a preference list, `""` when none. -/
def firstNonempty : List String → String
  | [] => ""
  | s :: rest => if s = "" then firstNonempty rest else s

/-- A record all of whose field values are strings — the shape every
search provider actually returns and the shape the spec's `RawResult`
field extraction talks about. -/
def strValuedB : Json → Bool
  | .obj o => o.all (fun kv => kv.2.isStr)
  | _ => false

/-- Record extraction as worded by spec §4.3: `url` from `url` or
`link`, `title` from `title` or `name`, `content` from `content`,
`snippet` or `text`, each taking the first non-empty value; the record
is dropped iff the extracted `url` is empty. -/
def specExtractRecord (r : Json) : Option Json :=
  match r with
  | .obj o =>
    let url := firstNonempty [strField o "url", strField o "link"]
    let title := firstNonempty [strField o "title", strField o "name"]
    let content := firstNonempty [strField o "content", strField o "snippet", strField o "text"]
    if url = "" then none
    else some (.obj [("url", .str url), ("title", .str title), ("content", .str content)])
  | _ => none

/-- An attempt outcome on which the `_http_search_once` loop just moves
on: a raised exception or a non-200 status. -/
def httpFailure : HttpResult → Bool
  | .exn => true
  | .resp status _ => status != 200

/-- The condition under which the two `_normalize_search`
implementations select the same candidate sequence: the payload is not
a dict, or `results` is a list, or `data` is not a list, or the first
list-valued member happens to be the `data` list. -/
def selectorsAgree : Json → Bool
  | .obj o =>
    (dictGet o "results").isList ||
    !(dictGet o "data").isList ||
    Json.beqList (firstListValue o) (dictGet o "data").asList
  | _ => true

/-- A one-URL, one-path configuration used by the concrete scenarios:
no fixed search URL, a single base candidate and a single path. -/
def smallCfg : HttpConfig := ⟨none, ["http://b"], ["/s"]⟩

/-- Network oracle of the C1 scenario: the first GET parameter shape
(keyed `q`) receives HTTP 429, the second GET shape (keyed `query`)
receives HTTP 200 with one result, everything else raises. -/
def c1oracle : Attempt → HttpResult := fun a =>
  match a.method, a.params with
  | .get, ("q", _) :: _ => .resp 429 .bad
  | .get, ("query", _) :: _ =>
      .resp 200 (.ok (.obj [("results", .list [.obj [("url", .str "https://x")]])]))
  | _, _ => .exn

/-- The first attempt `_http_search_once` issues in the C1 scenario. -/
def c1firstAttempt : Attempt := ⟨"http://b/s", .get, [("q", .str "q"), ("k", .num 5)]⟩

/-- Three distinct normalized records used by the C2 scenario. -/
def c2rec1 : Json := .obj [("url", .str "u1"), ("title", .str ""), ("content", .str "")]

/-- Second record of the C2 scenario. -/
def c2rec2 : Json := .obj [("url", .str "u2"), ("title", .str ""), ("content", .str "")]

/-- Third record of the C2 scenario. -/
def c2rec3 : Json := .obj [("url", .str "u3"), ("title", .str ""), ("content", .str "")]

/-- Network oracle of the C2 scenario: the first GET shape receives a
200 with three results, everything else raises. -/
def c2oracle : Attempt → HttpResult := fun a =>
  match a.method, a.params with
  | .get, ("q", _) :: _ =>
      .resp 200 (.ok (.obj [("results", .list
        [ .obj [("url", .str "u1")], .obj [("url", .str "u2")], .obj [("url", .str "u3")] ])]))
  | _, _ => .exn

/-- Payload of the C3 scenario: two records with the same url followed
by one with a fresh url. -/
def c3payload : Json :=
  .obj [("results", .list
    [ .obj [("url", .str "u1"), ("title", .str "T1")],
      .obj [("url", .str "u1"), ("title", .str "T2")],
      .obj [("url", .str "u2"), ("title", .str "T3")] ])]

/-- Network oracle of the C3 scenario: the first GET shape receives a
200 with `c3payload`, everything else raises. -/
def c3oracle : Attempt → HttpResult := fun a =>
  match a.method, a.params with
  | .get, ("q", _) :: _ => .resp 200 (.ok c3payload)
  | _, _ => .exn

/-- Payload on which the two normalizers diverge: no `results` member,
a list-valued member before a list-valued `data` member. -/
def c5payload : Json :=
  .obj [ ("a", .list [.obj [("url", .str "ux")]]),
         ("data", .list [.obj [("url", .str "uy")]]) ]

/-- The same divergence payload, used by the C9 counterexample. -/
def c9payload : Json :=
  .obj [ ("a", .list [.obj [("url", .str "ax")]]),
         ("data", .list [.obj [("url", .str "ay")]]) ]

/-- Two records with the same url and different titles (the spec's own
collector example). -/
def c4rec1 : Json := .obj [("url", .str "https://e.com/1"), ("title", .str "A")]

/-- Second record of the C4 scenario. -/
def c4rec2 : Json := .obj [("url", .str "https://e.com/1"), ("title", .str "B")]

mutual

theorem Json.beq_refl : ∀ a : Json, Json.beq a a = true
  | .null => rfl
  | .bool b => by simp [Json.beq]
  | .num n => by simp [Json.beq]
  | .str s => by simp [Json.beq]
  | .list l => by rw [Json.beq]; exact Json.beqList_refl l
  | .obj o => by rw [Json.beq]; exact Json.beqObj_refl o

theorem Json.beqList_refl : ∀ l : List Json, Json.beqList l l = true
  | [] => rfl
  | x :: xs => by rw [Json.beqList, Json.beq_refl x, Json.beqList_refl xs]; rfl

theorem Json.beqObj_refl : ∀ o : List (String × Json), Json.beqObj o o = true
  | [] => rfl
  | (k, v) :: xs => by
      rw [Json.beqObj, Json.beq_refl v, Json.beqObj_refl xs]
      simp

end

/-- Comparison against a string literal inverts: only that string
compares `beq`-equal to it. -/
theorem Json.beq_str_iff (a : Json) (u : String) :
    Json.beq a (.str u) = true ↔ a = .str u := by
  constructor
  · intro h
    cases a <;> simp [Json.beq] at h ⊢
    exact h
  · intro h; rw [h]; exact Json.beq_refl _

/-- A `Json.beq` mismatch refutes equality (contrapositive of
`Json.beq_refl`). -/
theorem Json.ne_of_beq_false {a b : Json} (h : Json.beq a b = false) : a ≠ b :=
  fun he => by rw [he, Json.beq_refl] at h; cases h

/-- A `Json.beqList` mismatch refutes equality of lists. -/
theorem Json.neList_of_beqList_false {a b : List Json} (h : Json.beqList a b = false) :
    a ≠ b :=
  fun he => by rw [he, Json.beqList_refl] at h; cases h

theorem optTruthy_none : optTruthy none = false := rfl

theorem optTruthy_some_iff {l : List Json} : optTruthy (some l) = true ↔ l ≠ [] := by
  simp [optTruthy]

/-- The collector rebuild keeps the record's url. -/
theorem recGet_collectRebuild (r : Json) :
    recGet (collectRebuild r) "url" = recGet r "url" := by
  simp [collectRebuild, recGet, dictGet]

/-- The collector never lengthens its input. -/
theorem collectGo_length_le : ∀ (l seen : List Json),
    (collectGo seen l).length ≤ l.length
  | [], _ => Nat.le_refl _
  | r :: rest, seen => by
      rw [collectGo]
      split
      · exact Nat.le_succ_of_le (collectGo_length_le rest seen)
      · simpa using Nat.succ_le_succ (collectGo_length_le rest _)

theorem collect_length_le (l : List Json) : (collect l).length ≤ l.length :=
  collectGo_length_le l []

/-- A false `any` is false at every member. -/
theorem any_false_of_mem {α : Type} {l : List α} {p : α → Bool}
    (h : l.any p = false) {x : α} (hx : x ∈ l) : p x = false := by
  cases hpx : p x
  · rfl
  · exact absurd (List.any_eq_true.mpr ⟨x, hx, hpx⟩) (by simp [h])

/-- Splitting the negated skip condition of the collector loop. -/
theorem skip_cond_false {url : Json} {seen : List Json}
    (hc : ¬((!truthy url || seen.any fun x => Json.beq x url) = true)) :
    truthy url = true ∧ (seen.any fun x => Json.beq x url) = false := by
  constructor
  · cases ht : truthy url
    · exact absurd (by rw [ht]; rfl) hc
    · rfl
  · cases ha : (seen.any fun x => Json.beq x url)
    · rfl
    · exact absurd (by rw [ha, Bool.or_true]) hc

/-- Every record the collector emits has a url that was not in `seen`
when the loop started. -/
theorem collectGo_beq_not_in_seen :
    ∀ (l seen : List Json) (r : Json), r ∈ collectGo seen l →
      ∀ x ∈ seen, Json.beq x (recGet r "url") = false := by
  intro l
  induction l with
  | nil => intro seen r hr; simp [collectGo] at hr
  | cons r0 rest ih =>
    intro seen r hr x hx
    rw [collectGo] at hr
    split at hr
    · exact ih seen r hr x hx
    · rename_i hc
      rcases List.mem_cons.mp hr with h1 | h1
      · subst h1
        rw [recGet_collectRebuild]
        exact any_false_of_mem (skip_cond_false hc).2 hx
      · exact ih _ r h1 x (List.mem_cons_of_mem _ hx)

/-- No two records the collector emits share a url. -/
theorem collectGo_pairwise :
    ∀ (l seen : List Json),
      (collectGo seen l).Pairwise (fun a b => recGet a "url" ≠ recGet b "url") := by
  intro l
  induction l with
  | nil => intro seen; simp [collectGo]
  | cons r0 rest ih =>
    intro seen
    rw [collectGo]
    split
    · exact ih seen
    · refine List.Pairwise.cons ?_ (ih _)
      intro b hb
      rw [recGet_collectRebuild]
      exact Json.ne_of_beq_false
        (collectGo_beq_not_in_seen rest _ b hb (recGet r0 "url") (List.mem_cons_self _ _))

/-- Once a url is in `seen`, the collector emits no record with it. -/
theorem collectGo_filter_of_seen :
    ∀ (l seen : List Json) (u : String),
      (seen.any fun x => Json.beq x (.str u)) = true →
      (collectGo seen l).filter (fun r => Json.beq (recGet r "url") (.str u)) = [] := by
  intro l
  induction l with
  | nil => intro seen u h; simp [collectGo]
  | cons r0 rest ih =>
    intro seen u h
    rw [collectGo]
    split
    · exact ih seen u h
    · rename_i hc
      have hc2 := skip_cond_false hc
      have hurl : Json.beq (recGet (collectRebuild r0) "url") (.str u) = false := by
        rw [recGet_collectRebuild]
        cases hbu : Json.beq (recGet r0 "url") (.str u)
        · rfl
        · have he : recGet r0 "url" = .str u := (Json.beq_str_iff _ _).mp hbu
          rw [he] at hc2
          rw [hc2.2] at h
          cases h
      rw [List.filter_cons_of_neg (by simp [hurl])]
      exact ih _ u (by rw [List.any_cons, h, Bool.or_true])

/-- While a url is not yet in `seen`, the collector keeps exactly the
first incoming record carrying it, rebuilt. -/
theorem collectGo_filter_of_not_seen :
    ∀ (l seen : List Json) (u : String), u ≠ "" →
      (seen.any fun x => Json.beq x (.str u)) = false →
      (collectGo seen l).filter (fun r => Json.beq (recGet r "url") (.str u)) =
        (match l.find? (fun r => Json.beq (recGet r "url") (.str u)) with
         | some r => [collectRebuild r]
         | none => []) := by
  intro l
  induction l with
  | nil => intro seen u hu hs; simp [collectGo]
  | cons r0 rest ih =>
    intro seen u hu hs
    by_cases hp : Json.beq (recGet r0 "url") (.str u) = true
    · have he : recGet r0 "url" = .str u := (Json.beq_str_iff _ _).mp hp
      have ht : truthy (recGet r0 "url") = true := by
        rw [he]; simpa [truthy] using hu
      have hfind : List.find? (fun r => Json.beq (recGet r "url") (Json.str u)) (r0 :: rest)
          = some r0 := by
        simp only [List.find?_cons, hp]
      rw [collectGo, if_neg (by rw [ht, he, hs]; simp)]
      rw [hfind]
      rw [List.filter_cons_of_pos (by rw [recGet_collectRebuild]; exact hp)]
      rw [collectGo_filter_of_seen rest _ u (by rw [List.any_cons, he, Json.beq_refl, Bool.true_or])]
    · have hp' : Json.beq (recGet r0 "url") (.str u) = false := by
        cases hb : Json.beq (recGet r0 "url") (.str u)
        · rfl
        · exact absurd hb hp
      have hfind : List.find? (fun r => Json.beq (recGet r "url") (Json.str u)) (r0 :: rest)
          = List.find? (fun r => Json.beq (recGet r "url") (Json.str u)) rest := by
        simp only [List.find?_cons, hp']
      rw [collectGo]
      split
      · rw [hfind]
        exact ih seen u hu hs
      · rw [hfind]
        rw [List.filter_cons_of_neg (by simp [recGet_collectRebuild, hp'])]
        exact ih _ u hu (by rw [List.any_cons, hp', hs]; rfl)

/-- C4: for every input sequence to the deduplicating collector, no two
output records have equal `url` fields, and for every non-empty url `u`
the output keeps exactly the first-seen input record carrying `u`
(rebuilt to its `title`/`url`/`content` fields); records with other
urls are unaffected, so input order is preserved. -/
theorem c4_collector_dedup_first_seen (l : List Json) (u : String) (hu : u ≠ "") :
    (collect l).Pairwise (fun a b => recGet a "url" ≠ recGet b "url") ∧
    (collect l).filter (fun r => Json.beq (recGet r "url") (.str u)) =
      (match l.find? (fun r => Json.beq (recGet r "url") (.str u)) with
       | some r => [collectRebuild r]
       | none => []) :=
  ⟨collectGo_pairwise l [], collectGo_filter_of_not_seen l [] u hu rfl⟩

/-- Witness for C4 at the spec's own example: two consecutive records
with identical url and different titles; only the first-seen record is
kept. -/
theorem c4_witness :
    (collect [c4rec1, c4rec2]).Pairwise (fun a b => recGet a "url" ≠ recGet b "url") ∧
    (collect [c4rec1, c4rec2]).filter
        (fun r => Json.beq (recGet r "url") (.str "https://e.com/1")) =
      (match List.find? (fun r => Json.beq (recGet r "url") (.str "https://e.com/1"))
             [c4rec1, c4rec2] with
       | some r => [collectRebuild r]
       | none => []) :=
  c4_collector_dedup_first_seen [c4rec1, c4rec2] "https://e.com/1" (by decide)

/-- Length of a `take` never exceeds the count. -/
theorem take_length_le (l : List Json) (n : Nat) : (l.take n).length ≤ n := by
  rw [List.length_take]
  exact Nat.min_le_left _ _

/-- The tier result returned by `appSearch` is sliced to `maxResults`. -/
theorem appSearch_length_le (sdkR : SdkResponse) (oracle : Attempt → HttpResult)
    (cfg : HttpConfig) (query : String) (maxResults : Nat) :
    (appSearch sdkR oracle cfg query maxResults).length ≤ maxResults := by
  simp only [appSearch]
  split
  · exact take_length_le _ _
  · split
    · exact take_length_le _ _
    · exact Nat.zero_le _

/-- The REST adapter of `publish4zenn.py` returns at most `maxResults`
records. -/
theorem zennTryHttp_length_le (r : HttpResult) (maxResults : Nat) :
    ((zennTryHttp r maxResults).getD []).length ≤ maxResults := by
  cases r with
  | exn => exact Nat.zero_le _
  | resp status body =>
    cases body with
    | ok j =>
      simp only [zennTryHttp]
      split
      · split
        · exact Nat.zero_le _
        · exact take_length_le _ _
      · exact Nat.zero_le _
    | bad =>
      simp only [zennTryHttp]
      split
      · exact Nat.zero_le _
      · exact Nat.zero_le _

/-- The SDK adapter of `publish4zenn.py` returns at most `maxResults`
records. -/
theorem zennTrySdk_length_le (sdkR : ZennSdkResponse) (maxResults : Nat) :
    ((zennTrySdk sdkR maxResults).getD []).length ≤ maxResults := by
  cases sdkR with
  | exn => exact Nat.zero_le _
  | value j =>
    simp only [zennTrySdk]
    split
    · exact Nat.zero_le _
    · exact take_length_le _ _

/-- The resolver of `publish4zenn.py` returns at most `maxResults`
records. -/
theorem zennSearch_length_le (httpR : HttpResult) (sdkR : ZennSdkResponse)
    (maxResults : Nat) :
    (zennSearch httpR sdkR maxResults).length ≤ maxResults := by
  simp only [zennSearch]
  split
  · exact zennTryHttp_length_le _ _
  · split
    · exact zennTrySdk_length_le _ _
    · exact Nat.zero_le _

/-- C8: for every query and requested maxResults, in both applications,
the length of the ResultSet returned by `web_search_and_fetch` is at
most maxResults. -/
theorem c8_length_le_max_results :
    (∀ (sdkR : SdkResponse) (oracle : Attempt → HttpResult) (cfg : HttpConfig)
       (query : String) (maxResults : Nat),
       (appWebSearchAndFetch sdkR oracle cfg query maxResults).length ≤ maxResults) ∧
    (∀ (httpR : HttpResult) (sdkR : ZennSdkResponse) (maxResults : Nat),
       (zennWebSearchAndFetch httpR sdkR maxResults).length ≤ maxResults) :=
  ⟨fun sdkR oracle cfg query maxResults =>
     Nat.le_trans (collect_length_le _) (appSearch_length_le sdkR oracle cfg query maxResults),
   fun httpR sdkR maxResults =>
     Nat.le_trans (collect_length_le _) (zennSearch_length_le httpR sdkR maxResults)⟩

/-- C7: no adapter ever raises to its caller — a transport exception, a
non-200 status and an undecodable 200 body each degrade the attempt to
NoResult — and when every tier yields NoResult the resolver of either
application returns the empty ResultSet instead of signalling an
error. -/
theorem c7_adapters_degrade_to_noresult :
    (tryOllamaSdk .exn = none ∧ tryOllamaSdk .noClient = none) ∧
    (∀ (oracle : Attempt → HttpResult) (a : Attempt),
       oracle a = .exn → attemptOnce oracle a = none) ∧
    (∀ (oracle : Attempt → HttpResult) (a : Attempt) (s : Nat) (b : JsonBody),
       oracle a = .resp s b → s ≠ 200 → attemptOnce oracle a = none) ∧
    (∀ (oracle : Attempt → HttpResult) (a : Attempt),
       oracle a = .resp 200 .bad → attemptOnce oracle a = none) ∧
    (∀ n, zennTryHttp .exn n = none ∧ zennTrySdk .exn n = none) ∧
    (∀ (sdkR : SdkResponse) (oracle : Attempt → HttpResult) (cfg : HttpConfig)
       (query : String) (n : Nat),
       optTruthy (tryOllamaSdk sdkR) = false →
       optTruthy (tryOllamaHttp oracle cfg query n) = false →
       appSearch sdkR oracle cfg query n = []) ∧
    (∀ (httpR : HttpResult) (sdkR : ZennSdkResponse) (n : Nat),
       optTruthy (zennTryHttp httpR n) = false →
       optTruthy (zennTrySdk sdkR n) = false →
       zennSearch httpR sdkR n = []) := by
  refine ⟨⟨rfl, rfl⟩, ?_, ?_, ?_, fun n => ⟨rfl, rfl⟩, ?_, ?_⟩
  · intro oracle a h
    rw [attemptOnce, h]
  · intro oracle a s b h hs
    rw [attemptOnce, h]
    simp only [if_neg hs]
  · intro oracle a h
    rw [attemptOnce, h]
    rfl
  · intro sdkR oracle cfg query n h1 h2
    simp [appSearch, h1, h2]
  · intro httpR sdkR n h1 h2
    simp [zennSearch, h1, h2]

/-- Witness for C7: with the capability absent / every call raising,
both resolvers return the empty ResultSet. -/
theorem c7_witness :
    appSearch .exn (fun _ => .exn) smallCfg "q" 5 = [] ∧
    zennSearch .exn .exn 5 = [] :=
  ⟨c7_adapters_degrade_to_noresult.2.2.2.2.2.1 .exn (fun _ => .exn) smallCfg "q" 5 rfl rfl,
   c7_adapters_degrade_to_noresult.2.2.2.2.2.2 .exn .exn 5 rfl rfl⟩

/-- C2 fails as stated: with the SDK tier yielding NoResult and the
direct-HTTP tier yielding three records, `search` with `max_results =
2` returns the tier-2 set truncated, not unmodified. -/
theorem c2_counterexample :
    tryOllamaSdk .noClient = none ∧
    tryOllamaHttp c2oracle smallCfg "q" 2 = some [c2rec1, c2rec2, c2rec3] ∧
    appSearch .noClient c2oracle smallCfg "q" 2 = [c2rec1, c2rec2] ∧
    [c2rec1, c2rec2] ≠ [c2rec1, c2rec2, c2rec3] :=
  ⟨rfl, rfl, rfl, Json.neList_of_beqList_false (by rfl)⟩

/-- C2 (amended): as soon as a tier returns a truthy result set, the
resolver returns that set truncated to the first maxResults elements
and never attempts a later tier (a tier-1 success makes the result
independent of the network oracle); in particular when tier 1 yields
NoResult and tier 2 a truthy set, the returned set is tier 2's set
truncated to maxResults (tier 3 does not exist in the live code). -/
theorem c2_amended_first_success_truncated
    (sdkR : SdkResponse) (oracle : Attempt → HttpResult) (cfg : HttpConfig)
    (query : String) (maxResults : Nat) :
    (optTruthy (tryOllamaSdk sdkR) = true →
      appSearch sdkR oracle cfg query maxResults
        = ((tryOllamaSdk sdkR).getD []).take maxResults ∧
      ∀ oracle' : Attempt → HttpResult,
        appSearch sdkR oracle' cfg query maxResults
          = appSearch sdkR oracle cfg query maxResults) ∧
    (optTruthy (tryOllamaSdk sdkR) = false →
      optTruthy (tryOllamaHttp oracle cfg query maxResults) = true →
      appSearch sdkR oracle cfg query maxResults
        = ((tryOllamaHttp oracle cfg query maxResults).getD []).take maxResults) := by
  constructor
  · intro h1
    constructor
    · simp [appSearch, h1]
    · intro o'
      simp [appSearch, h1]
  · intro h1 h2
    simp [appSearch, h1, h2]

/-- Witness for C2 (amended) at both scenarios: a tier-2 success and a
tier-1 success. -/
theorem c2_witness :
    appSearch .noClient c2oracle smallCfg "q" 2
      = ((tryOllamaHttp c2oracle smallCfg "q" 2).getD []).take 2 ∧
    appSearch (.value (.obj [("results", .list [.obj [("url", .str "w")]])]))
        (fun _ => .exn) smallCfg "q" 1
      = ((tryOllamaSdk (.value (.obj [("results", .list [.obj [("url", .str "w")]])]))).getD
          []).take 1 :=
  ⟨(c2_amended_first_success_truncated .noClient c2oracle smallCfg "q" 2).2 rfl rfl,
   ((c2_amended_first_success_truncated
       (.value (.obj [("results", .list [.obj [("url", .str "w")]])]))
       (fun _ => .exn) smallCfg "q" 1).1 rfl).1⟩

theorem firstSome_congr {α β : Type} {f g : α → Option β} :
    ∀ l : List α, (∀ a ∈ l, f a = g a) → firstSome f l = firstSome g l
  | [], _ => rfl
  | x :: xs, h => by
      simp only [firstSome]
      rw [h x (List.mem_cons_self x xs)]
      cases g x with
      | some r => rfl
      | none => exact firstSome_congr xs (fun a ha => h a (List.mem_cons_of_mem _ ha))

/-- A failed attempt (exception or non-200 status) contributes
nothing. -/
theorem attemptOnce_of_httpFailure (oracle : Attempt → HttpResult) (a : Attempt)
    (h : httpFailure (oracle a) = true) : attemptOnce oracle a = none := by
  cases ho : oracle a with
  | exn => rw [attemptOnce, ho]
  | resp s b =>
    rw [ho] at h
    simp only [httpFailure, bne_iff_ne] at h
    rw [attemptOnce, ho]
    simp only [if_neg h]

/-- Oracles that agree up to the exact shape of failures produce the
same attempt outcomes. -/
theorem attemptOnce_congr {o1 o2 : Attempt → HttpResult} (a : Attempt)
    (h : o1 a = o2 a ∨ (httpFailure (o1 a) = true ∧ httpFailure (o2 a) = true)) :
    attemptOnce o1 a = attemptOnce o2 a := by
  rcases h with h | ⟨h1, h2⟩
  · rw [attemptOnce, attemptOnce, h]
  · rw [attemptOnce_of_httpFailure o1 a h1, attemptOnce_of_httpFailure o2 a h2]

/-- `_http_search_once` only sees attempts through their outcomes. -/
theorem httpSearchOnce_congr {o1 o2 : Attempt → HttpResult}
    (h : ∀ a, attemptOnce o1 a = attemptOnce o2 a) (url query : String)
    (maxResults : Nat) :
    httpSearchOnce o1 url query maxResults = httpSearchOnce o2 url query maxResults := by
  rw [httpSearchOnce, httpSearchOnce,
      firstSome_congr _ (fun a _ => h _), firstSome_congr _ (fun a _ => h _)]

/-- `_try_ollama_http` only sees attempts through their outcomes. -/
theorem tryOllamaHttp_congr {o1 o2 : Attempt → HttpResult}
    (h : ∀ a, attemptOnce o1 a = attemptOnce o2 a) (cfg : HttpConfig)
    (query : String) (maxResults : Nat) :
    tryOllamaHttp o1 cfg query maxResults = tryOllamaHttp o2 cfg query maxResults := by
  have hs : ∀ u, httpSearchOnce o1 u query maxResults = httpSearchOnce o2 u query maxResults :=
    fun u => httpSearchOnce_congr h u query maxResults
  have hrest : firstSome (fun url => keepTruthy (httpSearchOnce o1 url query maxResults))
        (cfg.baseCandidates.flatMap fun b => cfg.searchPaths.map fun p => rstripSlashes b ++ p)
      = firstSome (fun url => keepTruthy (httpSearchOnce o2 url query maxResults))
        (cfg.baseCandidates.flatMap fun b => cfg.searchPaths.map fun p => rstripSlashes b ++ p) :=
    firstSome_congr _ (fun u _ => by rw [hs u])
  simp only [tryOllamaHttp]
  cases cfg.fixedSearchUrl with
  | none => exact hrest
  | some u =>
    show (match keepTruthy (httpSearchOnce o1 u query maxResults) with
          | some r => some r
          | none => firstSome (fun url => keepTruthy (httpSearchOnce o1 url query maxResults))
              (cfg.baseCandidates.flatMap fun b => cfg.searchPaths.map fun p => rstripSlashes b ++ p))
        = (match keepTruthy (httpSearchOnce o2 u query maxResults) with
          | some r => some r
          | none => firstSome (fun url => keepTruthy (httpSearchOnce o2 url query maxResults))
              (cfg.baseCandidates.flatMap fun b => cfg.searchPaths.map fun p => rstripSlashes b ++ p))
    rw [hs u]
    cases keepTruthy (httpSearchOnce o2 u query maxResults) with
    | some r => rfl
    | none => exact hrest

/-- C1 fails as stated on app.py: the very first URL/parameter
combination of the direct-HTTP tier receives HTTP 429, yet the tier
does not stop — its next parameter shape is attempted and that 200
response becomes the tier's result.  Had the tier short-circuited on
the 429 as the claim requires, its result would have been NoResult. -/
theorem c1_counterexample :
    (getParamShapes "q" 5).head? = some c1firstAttempt.params ∧
    smallCfg.fixedSearchUrl = none ∧
    (smallCfg.baseCandidates.flatMap fun b => smallCfg.searchPaths.map fun p => rstripSlashes b ++ p)
      = [c1firstAttempt.url] ∧
    c1oracle c1firstAttempt = .resp 429 .bad ∧
    tryOllamaHttp c1oracle smallCfg "q" 5
      = some [.obj [("url", .str "https://x"), ("title", .str ""), ("content", .str "")]] :=
  ⟨rfl, rfl, rfl, rfl, rfl⟩

/-- C1 (amended): in app.py a 401/402/403/429 response is not special —
it is a failure outcome exactly like a transport exception or any other
non-200 status, the attempt yields NoResult and the direct-HTTP tier
continues with its remaining URL/path/parameter combinations (two
oracles that differ only in the shape of failure outcomes drive the
tier to the same result); in publish4zenn.py the direct-HTTP tier is a
single POST, a quota status yields NoResult for it, and the resolver
still proceeds to the next (SDK) tier. -/
theorem c1_amended_quota_is_generic_failure
    (o1 o2 : Attempt → HttpResult) (cfg : HttpConfig) (query : String) (maxResults : Nat)
    (h : ∀ a, o1 a = o2 a ∨ (httpFailure (o1 a) = true ∧ httpFailure (o2 a) = true)) :
    tryOllamaHttp o1 cfg query maxResults = tryOllamaHttp o2 cfg query maxResults ∧
    (∀ (s : Nat) (b : JsonBody), (s = 401 ∨ s = 402 ∨ s = 403 ∨ s = 429) →
      httpFailure (.resp s b) = true) ∧
    (∀ (s : Nat) (b : JsonBody) (sdkR : ZennSdkResponse) (n : Nat),
      (s = 401 ∨ s = 402 ∨ s = 403 ∨ s = 429) →
      zennSearch (.resp s b) sdkR n
        = (if optTruthy (zennTrySdk sdkR n) then (zennTrySdk sdkR n).getD [] else [])) := by
  refine ⟨tryOllamaHttp_congr (fun a => attemptOnce_congr a (h a)) cfg query maxResults, ?_, ?_⟩
  · rintro s b (rfl | rfl | rfl | rfl) <;> rfl
  · rintro s b sdkR n hs
    have hz : zennTryHttp (.resp s b) n = none := by
      rcases hs with rfl | rfl | rfl | rfl <;> rfl
    simp [zennSearch, hz, optTruthy]

/-- Witness for C1 (amended): an always-429 oracle drives the
direct-HTTP tier exactly like an always-raising oracle, and
publish4zenn.py's resolver falls through to the SDK tier after a 429. -/
theorem c1_witness :
    tryOllamaHttp (fun _ => .resp 429 .bad) smallCfg "q" 3
      = tryOllamaHttp (fun _ => .exn) smallCfg "q" 3 ∧
    httpFailure (.resp 429 .bad) = true ∧
    zennSearch (.resp 429 .bad) .exn 5
      = (if optTruthy (zennTrySdk .exn 5) then (zennTrySdk .exn 5).getD [] else []) :=
  have h := c1_amended_quota_is_generic_failure (fun _ => .resp 429 .bad) (fun _ => .exn)
    smallCfg "q" 3 (fun _ => Or.inr ⟨rfl, rfl⟩)
  ⟨h.1, h.2.1 429 .bad (Or.inr (Or.inr (Or.inr rfl))),
   h.2.2 429 .bad .exn 5 (Or.inr (Or.inr (Or.inr rfl)))⟩

/-- First normalized record of the C3 scenario. -/
def c3n1 : Json := .obj [("url", .str "u1"), ("title", .str "T1"), ("content", .str "")]

/-- Second normalized record of the C3 scenario (same url as the
first). -/
def c3n2 : Json := .obj [("url", .str "u1"), ("title", .str "T2"), ("content", .str "")]

/-- The record kept by the collector in the C3 scenario. -/
def c3kept : Json := .obj [("title", .str "T1"), ("url", .str "u1"), ("content", .str "")]

/-- The second record dedup-then-truncate would keep in the C3
scenario. -/
def c3kept2 : Json := .obj [("title", .str "T3"), ("url", .str "u2"), ("content", .str "")]

/-- C3 fails as stated: app.py's resolver truncates the winning tier's
set to maxResults before the collector deduplicates, so the pipeline
returns one record where dedup-then-truncate would return two. -/
theorem c3_counterexample :
    appSearch .noClient c3oracle smallCfg "q" 2 = [c3n1, c3n2] ∧
    appWebSearchAndFetch .noClient c3oracle smallCfg "q" 2 = [c3kept] ∧
    (collect (appNormalize c3payload)).take 2 = [c3kept, c3kept2] ∧
    [c3kept] ≠ [c3kept, c3kept2] :=
  ⟨rfl, rfl, rfl, Json.neList_of_beqList_false rfl⟩

/-- The collector drops nothing when the incoming urls are truthy and
pairwise distinct: it never count-limits. -/
theorem collectGo_length_of_distinct :
    ∀ (l seen : List Json),
      (∀ r ∈ l, truthy (recGet r "url") = true) →
      (∀ r ∈ l, ∀ x ∈ seen, Json.beq x (recGet r "url") = false) →
      (l.map fun r => recGet r "url").Pairwise (fun a b => Json.beq a b = false) →
      (collectGo seen l).length = l.length := by
  intro l
  induction l with
  | nil => intro seen _ _ _; rfl
  | cons r0 rest ih =>
    intro seen ht hseen hpw
    have ht0 : truthy (recGet r0 "url") = true := ht r0 (List.mem_cons_self _ _)
    have hs0 : (seen.any fun x => Json.beq x (recGet r0 "url")) = false := by
      cases ha : seen.any fun x => Json.beq x (recGet r0 "url")
      · rfl
      · obtain ⟨x, hx, hbx⟩ := List.any_eq_true.mp ha
        rw [hseen r0 (List.mem_cons_self _ _) x hx] at hbx
        cases hbx
    rw [List.map_cons, List.pairwise_cons] at hpw
    rw [collectGo, if_neg (by rw [ht0, hs0]; simp)]
    have htail : (collectGo (recGet r0 "url" :: seen) rest).length = rest.length := by
      apply ih
      · intro r hr
        exact ht r (List.mem_cons_of_mem _ hr)
      · intro r hr x hx
        rcases List.mem_cons.mp hx with rfl | hx'
        · exact hpw.1 _ (List.mem_map_of_mem _ hr)
        · exact hseen r (List.mem_cons_of_mem _ hr) x hx'
      · exact hpw.2
    simp [htail]

/-- C3 (amended): count-limiting happens before deduplication, not
after — app.py's resolver truncates the winning tier's set to
maxResults and hands the truncated set to the collector; the collector
deduplicates only and never count-limits (pairwise-distinct truthy
urls pass through full-length); and publish4zenn.py's REST adapter
truncates client-side to maxResults (its request carries no result
count at all). -/
theorem c3_amended_truncate_before_dedup
    (sdkR : SdkResponse) (oracle : Attempt → HttpResult) (cfg : HttpConfig)
    (query : String) (maxResults : Nat)
    (h1 : optTruthy (tryOllamaSdk sdkR) = false)
    (h2 : optTruthy (tryOllamaHttp oracle cfg query maxResults) = true) :
    appWebSearchAndFetch sdkR oracle cfg query maxResults
      = collect (((tryOllamaHttp oracle cfg query maxResults).getD []).take maxResults) ∧
    (∀ l : List Json,
      (∀ r ∈ l, truthy (recGet r "url") = true) →
      (l.map fun r => recGet r "url").Pairwise (fun a b => Json.beq a b = false) →
      (collect l).length = l.length) ∧
    (∀ (j : Json) (m : Nat),
      ((zennTryHttp (.resp 200 (.ok j)) m).getD []) = (zennNormalize j).take m) := by
  refine ⟨?_, ?_, ?_⟩
  · simp [appWebSearchAndFetch, appSearch, h1, h2]
  · intro l hturl hpw
    exact collectGo_length_of_distinct l [] hturl (by intro r _ x hx; cases hx) hpw
  · intro j m
    by_cases hi : ((zennNormalize j).take m).isEmpty = true
    · simp [zennTryHttp, hi, List.isEmpty_iff.mp hi]
    · simp [zennTryHttp, hi]

/-- Witness for C3 (amended) at the concrete C3 scenario. -/
theorem c3_witness :
    appWebSearchAndFetch .noClient c3oracle smallCfg "q" 2
      = collect (((tryOllamaHttp c3oracle smallCfg "q" 2).getD []).take 2) ∧
    (collect [c3kept]).length = [c3kept].length ∧
    ((zennTryHttp (.resp 200 (.ok c3payload)) 2).getD [])
      = (zennNormalize c3payload).take 2 :=
  have h := c3_amended_truncate_before_dedup .noClient c3oracle smallCfg "q" 2 rfl rfl
  ⟨h.1, h.2.1 [c3kept] (by decide) (by decide), h.2.2 c3payload 2⟩

mutual

theorem Json.eq_of_beq : ∀ (a b : Json), Json.beq a b = true → a = b
  | .null, .null, _ => rfl
  | .bool a, .bool b, h => by
      simp only [Json.beq] at h
      exact congrArg Json.bool (by simpa using h)
  | .num a, .num b, h => by
      simp only [Json.beq] at h
      exact congrArg Json.num (by simpa using h)
  | .str a, .str b, h => by
      simp only [Json.beq] at h
      exact congrArg Json.str (by simpa using h)
  | .list a, .list b, h => congrArg Json.list (Json.eqList_of_beqList a b h)
  | .obj a, .obj b, h => congrArg Json.obj (Json.eqObj_of_beqObj a b h)
  | .null, .bool _, h => Bool.noConfusion h
  | .null, .num _, h => Bool.noConfusion h
  | .null, .str _, h => Bool.noConfusion h
  | .null, .list _, h => Bool.noConfusion h
  | .null, .obj _, h => Bool.noConfusion h
  | .bool _, .null, h => Bool.noConfusion h
  | .bool _, .num _, h => Bool.noConfusion h
  | .bool _, .str _, h => Bool.noConfusion h
  | .bool _, .list _, h => Bool.noConfusion h
  | .bool _, .obj _, h => Bool.noConfusion h
  | .num _, .null, h => Bool.noConfusion h
  | .num _, .bool _, h => Bool.noConfusion h
  | .num _, .str _, h => Bool.noConfusion h
  | .num _, .list _, h => Bool.noConfusion h
  | .num _, .obj _, h => Bool.noConfusion h
  | .str _, .null, h => Bool.noConfusion h
  | .str _, .bool _, h => Bool.noConfusion h
  | .str _, .num _, h => Bool.noConfusion h
  | .str _, .list _, h => Bool.noConfusion h
  | .str _, .obj _, h => Bool.noConfusion h
  | .list _, .null, h => Bool.noConfusion h
  | .list _, .bool _, h => Bool.noConfusion h
  | .list _, .num _, h => Bool.noConfusion h
  | .list _, .str _, h => Bool.noConfusion h
  | .list _, .obj _, h => Bool.noConfusion h
  | .obj _, .null, h => Bool.noConfusion h
  | .obj _, .bool _, h => Bool.noConfusion h
  | .obj _, .num _, h => Bool.noConfusion h
  | .obj _, .str _, h => Bool.noConfusion h
  | .obj _, .list _, h => Bool.noConfusion h

theorem Json.eqList_of_beqList : ∀ (a b : List Json), Json.beqList a b = true → a = b
  | [], [], _ => rfl
  | x :: xs, y :: ys, h => by
      simp only [Json.beqList, Bool.and_eq_true] at h
      rw [Json.eq_of_beq x y h.1, Json.eqList_of_beqList xs ys h.2]
  | [], _ :: _, h => Bool.noConfusion h
  | _ :: _, [], h => Bool.noConfusion h

theorem Json.eqObj_of_beqObj :
    ∀ (a b : List (String × Json)), Json.beqObj a b = true → a = b
  | [], [], _ => rfl
  | (k1, v1) :: xs, (k2, v2) :: ys, h => by
      simp only [Json.beqObj, Bool.and_eq_true] at h
      obtain ⟨⟨hk, hv⟩, ht⟩ := h
      rw [show k1 = k2 from by simpa using hk, Json.eq_of_beq v1 v2 hv,
          Json.eqObj_of_beqObj xs ys ht]

end

/-- C5 fails as stated for publish4zenn.py: on a keyed payload whose
`data` member is a list but is preceded by another list-valued member,
its normalizer selects the earlier list, not the `data` list the claim
requires (it has no `data` preference at all). -/
theorem c5_counterexample :
    appSelectItems c5payload = [.obj [("url", .str "uy")]] ∧
    zennSelectItems c5payload = [.obj [("url", .str "ux")]] ∧
    ([.obj [("url", .str "ux")]] : List Json) ≠ [.obj [("url", .str "uy")]] ∧
    zennNormalize c5payload
      = [.obj [("url", .str "ux"), ("title", .str ""), ("content", .str "")]] :=
  ⟨rfl, rfl, Json.neList_of_beqList_false rfl, rfl⟩

/-- C5 (amended): app.py's normalizer selects the candidate sequence by
`results`, else `data`, else the first list-valued field; the
publish4zenn.py normalizer selects by `results`, else the first
list-valued field, with no `data` preference. -/
theorem c5_amended_candidate_selection (o : List (String × Json)) :
    appSelectItems (.obj o)
      = (if (dictGet o "results").isList then (dictGet o "results").asList
         else if (dictGet o "data").isList then (dictGet o "data").asList
         else firstListValue o) ∧
    zennSelectItems (.obj o)
      = (if (dictGet o "results").isList then (dictGet o "results").asList
         else firstListValue o) := by
  constructor
  · cases hres : dictGet o "results" with
    | list l => simp [appSelectItems, hres, Json.isList, Json.asList]
    | null =>
      cases hdat : dictGet o "data" with
      | list l => simp [appSelectItems, hres, hdat, Json.isList, Json.asList]
      | null => simp [appSelectItems, hres, hdat, Json.isList, Json.asList]
      | bool b => simp [appSelectItems, hres, hdat, Json.isList, Json.asList]
      | num n => simp [appSelectItems, hres, hdat, Json.isList, Json.asList]
      | str s => simp [appSelectItems, hres, hdat, Json.isList, Json.asList]
      | obj o2 => simp [appSelectItems, hres, hdat, Json.isList, Json.asList]
    | bool b =>
      cases hdat : dictGet o "data" <;>
        simp [appSelectItems, hres, hdat, Json.isList, Json.asList]
    | num n =>
      cases hdat : dictGet o "data" <;>
        simp [appSelectItems, hres, hdat, Json.isList, Json.asList]
    | str s =>
      cases hdat : dictGet o "data" <;>
        simp [appSelectItems, hres, hdat, Json.isList, Json.asList]
    | obj o2 =>
      cases hdat : dictGet o "data" <;>
        simp [appSelectItems, hres, hdat, Json.isList, Json.asList]
  · cases hres : dictGet o "results" <;>
      simp [zennSelectItems, hres, Json.isList, Json.asList]

/-- C9 fails as stated: on a payload with a list-valued field before a
list-valued `data` field (and no `results`), the two normalizers
return different record sequences. -/
theorem c9_counterexample :
    appNormalize c9payload
      = [.obj [("url", .str "ay"), ("title", .str ""), ("content", .str "")]] ∧
    zennNormalize c9payload
      = [.obj [("url", .str "ax"), ("title", .str ""), ("content", .str "")]] ∧
    appNormalize c9payload ≠ zennNormalize c9payload :=
  ⟨rfl, rfl, Json.neList_of_beqList_false rfl⟩

/-- C9 (amended): the two normalizers return the same sequence on every
payload except a keyed payload whose `results` member is not a list,
whose `data` member is a list, and whose first list-valued member is
not that `data` list — i.e. whenever `selectorsAgree` holds. -/
theorem c9_amended_normalizers_agree (d : Json) (h : selectorsAgree d = true) :
    appNormalize d = zennNormalize d := by
  cases d with
  | null => rfl
  | bool b => rfl
  | num n => rfl
  | str s => rfl
  | list l => rfl
  | obj o =>
    have hsel : appSelectItems (.obj o) = zennSelectItems (.obj o) := by
      cases hres : dictGet o "results" with
      | list l => simp [appSelectItems, zennSelectItems, hres]
      | null =>
        simp only [selectorsAgree, hres, Json.isList, Bool.false_or] at h
        cases hdat : dictGet o "data" with
        | list ld =>
          rw [hdat] at h
          simp only [Json.isList, Bool.not_true, Bool.false_or, Json.asList] at h
          have : firstListValue o = ld := Json.eqList_of_beqList _ _ h
          simp [appSelectItems, zennSelectItems, hres, hdat, this]
        | null => simp [appSelectItems, zennSelectItems, hres, hdat]
        | bool b => simp [appSelectItems, zennSelectItems, hres, hdat]
        | num n => simp [appSelectItems, zennSelectItems, hres, hdat]
        | str s => simp [appSelectItems, zennSelectItems, hres, hdat]
        | obj o2 => simp [appSelectItems, zennSelectItems, hres, hdat]
      | bool b =>
        simp only [selectorsAgree, hres, Json.isList, Bool.false_or] at h
        cases hdat : dictGet o "data" with
        | list ld =>
          rw [hdat] at h
          simp only [Json.isList, Bool.not_true, Bool.false_or, Json.asList] at h
          have : firstListValue o = ld := Json.eqList_of_beqList _ _ h
          simp [appSelectItems, zennSelectItems, hres, hdat, this]
        | null => simp [appSelectItems, zennSelectItems, hres, hdat]
        | bool b2 => simp [appSelectItems, zennSelectItems, hres, hdat]
        | num n => simp [appSelectItems, zennSelectItems, hres, hdat]
        | str s => simp [appSelectItems, zennSelectItems, hres, hdat]
        | obj o2 => simp [appSelectItems, zennSelectItems, hres, hdat]
      | num n =>
        simp only [selectorsAgree, hres, Json.isList, Bool.false_or] at h
        cases hdat : dictGet o "data" with
        | list ld =>
          rw [hdat] at h
          simp only [Json.isList, Bool.not_true, Bool.false_or, Json.asList] at h
          have : firstListValue o = ld := Json.eqList_of_beqList _ _ h
          simp [appSelectItems, zennSelectItems, hres, hdat, this]
        | null => simp [appSelectItems, zennSelectItems, hres, hdat]
        | bool b => simp [appSelectItems, zennSelectItems, hres, hdat]
        | num n2 => simp [appSelectItems, zennSelectItems, hres, hdat]
        | str s => simp [appSelectItems, zennSelectItems, hres, hdat]
        | obj o2 => simp [appSelectItems, zennSelectItems, hres, hdat]
      | str s =>
        simp only [selectorsAgree, hres, Json.isList, Bool.false_or] at h
        cases hdat : dictGet o "data" with
        | list ld =>
          rw [hdat] at h
          simp only [Json.isList, Bool.not_true, Bool.false_or, Json.asList] at h
          have : firstListValue o = ld := Json.eqList_of_beqList _ _ h
          simp [appSelectItems, zennSelectItems, hres, hdat, this]
        | null => simp [appSelectItems, zennSelectItems, hres, hdat]
        | bool b => simp [appSelectItems, zennSelectItems, hres, hdat]
        | num n => simp [appSelectItems, zennSelectItems, hres, hdat]
        | str s2 => simp [appSelectItems, zennSelectItems, hres, hdat]
        | obj o2 => simp [appSelectItems, zennSelectItems, hres, hdat]
      | obj o1 =>
        simp only [selectorsAgree, hres, Json.isList, Bool.false_or] at h
        cases hdat : dictGet o "data" with
        | list ld =>
          rw [hdat] at h
          simp only [Json.isList, Bool.not_true, Bool.false_or, Json.asList] at h
          have : firstListValue o = ld := Json.eqList_of_beqList _ _ h
          simp [appSelectItems, zennSelectItems, hres, hdat, this]
        | null => simp [appSelectItems, zennSelectItems, hres, hdat]
        | bool b => simp [appSelectItems, zennSelectItems, hres, hdat]
        | num n => simp [appSelectItems, zennSelectItems, hres, hdat]
        | str s => simp [appSelectItems, zennSelectItems, hres, hdat]
        | obj o2 => simp [appSelectItems, zennSelectItems, hres, hdat]
    rw [appNormalize, zennNormalize, hsel]

/-- Witness for C9 (amended): on a payload whose first list-valued
member is its `data` list, the two normalizers agree. -/
theorem c9_witness :
    appNormalize (.obj [("data", .list [.obj [("url", .str "a")]])])
      = zennNormalize (.obj [("data", .list [.obj [("url", .str "a")]])]) :=
  c9_amended_normalizers_agree (.obj [("data", .list [.obj [("url", .str "a")]])]) rfl

/-- In an all-string record every field read is `None` or a string. -/
theorem dictGet_null_or_str {o : List (String × Json)}
    (h : strValuedB (.obj o) = true) (k : String) :
    dictGet o k = .null ∨ ∃ s, dictGet o k = .str s := by
  induction o with
  | nil => exact Or.inl rfl
  | cons kv rest ih =>
    obtain ⟨k', v⟩ := kv
    simp only [strValuedB, List.all_cons, Bool.and_eq_true] at h
    by_cases hk : k' = k
    · rw [dictGet, if_pos hk]
      cases v with
      | str s => exact Or.inr ⟨s, rfl⟩
      | null => exact absurd h.1 (by simp [Json.isStr])
      | bool b => exact absurd h.1 (by simp [Json.isStr])
      | num n => exact absurd h.1 (by simp [Json.isStr])
      | list l => exact absurd h.1 (by simp [Json.isStr])
      | obj o2 => exact absurd h.1 (by simp [Json.isStr])
    · rw [dictGet, if_neg hk]
      exact ih (by simp [strValuedB, h.2])

/-- A Python `or` chain over `None`-or-string values folds into taking
the first non-empty string. -/
theorem pyOr_chain (j : Json) (hj : j = .null ∨ ∃ s, j = .str s) (l : List String) :
    pyOr j (.str (firstNonempty l)) = .str (firstNonempty (jstr j :: l)) := by
  rcases hj with rfl | ⟨s, rfl⟩
  · simp [pyOr, truthy, jstr, firstNonempty]
  · by_cases hs : s = ""
    · subst hs
      simp [pyOr, truthy, jstr, firstNonempty]
    · simp [pyOr, truthy, jstr, firstNonempty, hs]

/-- On all-string records the source's per-record loop is exactly the
spec-worded extraction: url from `url`/`link`, title from
`title`/`name`, content from `content`/`snippet`/`text`, first
non-empty value each, record dropped iff the url is empty, order
preserved. -/
theorem normRecords_eq_specExtract :
    ∀ items : List Json, (∀ r ∈ items, strValuedB r = true) →
      normRecords items = items.filterMap specExtractRecord := by
  intro items
  induction items with
  | nil => intro _; rfl
  | cons r rest ih =>
    intro h
    have hr := h r (List.mem_cons_self _ _)
    have hrest := ih fun r' hr' => h r' (List.mem_cons_of_mem _ hr')
    cases r with
    | obj o =>
      have hget := dictGet_null_or_str (o := o) hr
      have hurl : pyOr (dictGet o "url") (pyOr (dictGet o "link") (.str ""))
          = .str (firstNonempty [strField o "url", strField o "link"]) := by
        have h1 := pyOr_chain (dictGet o "link") (hget "link") []
        have h2 := pyOr_chain (dictGet o "url") (hget "url") [strField o "link"]
        simp only [strField] at h1 h2 ⊢
        rw [show (Json.str "" : Json) = .str (firstNonempty []) from rfl, h1, h2]
      have htitle : pyOr (dictGet o "title") (pyOr (dictGet o "name") (.str ""))
          = .str (firstNonempty [strField o "title", strField o "name"]) := by
        have h1 := pyOr_chain (dictGet o "name") (hget "name") []
        have h2 := pyOr_chain (dictGet o "title") (hget "title") [strField o "name"]
        simp only [strField] at h1 h2 ⊢
        rw [show (Json.str "" : Json) = .str (firstNonempty []) from rfl, h1, h2]
      have hcontent : pyOr (dictGet o "content")
            (pyOr (dictGet o "snippet") (pyOr (dictGet o "text") (.str "")))
          = .str (firstNonempty
              [strField o "content", strField o "snippet", strField o "text"]) := by
        have h1 := pyOr_chain (dictGet o "text") (hget "text") []
        have h2 := pyOr_chain (dictGet o "snippet") (hget "snippet") [strField o "text"]
        have h3 := pyOr_chain (dictGet o "content") (hget "content")
          [strField o "snippet", strField o "text"]
        simp only [strField] at h1 h2 h3 ⊢
        rw [show (Json.str "" : Json) = .str (firstNonempty []) from rfl, h1, h2, h3]
      simp only [normRecords, hurl, htitle, hcontent, List.filterMap_cons, specExtractRecord]
      by_cases hu : firstNonempty [strField o "url", strField o "link"] = ""
      · simp [hu, truthy, hrest]
      · simp [hu, truthy, hrest]
    | null => simpa [normRecords, List.filterMap_cons, specExtractRecord] using hrest
    | bool b => simpa [normRecords, List.filterMap_cons, specExtractRecord] using hrest
    | num n => simpa [normRecords, List.filterMap_cons, specExtractRecord] using hrest
    | str s => simpa [normRecords, List.filterMap_cons, specExtractRecord] using hrest
    | list l => simpa [normRecords, List.filterMap_cons, specExtractRecord] using hrest

/-- C6: for every all-string candidate record, the normalizer extracts
url from `url` or `link`, title from `title` or `name`, content from
`content`, `snippet` or `text` in that preference order; records
lacking a non-empty url are dropped silently; output preserves input
order.  In particular the bare sequence with `link`/`name`/`snippet`
aliases normalizes to the canonical record. -/
theorem c6_normalizer_field_aliases (items : List Json)
    (h : ∀ r ∈ items, strValuedB r = true) :
    normRecords items = items.filterMap specExtractRecord ∧
    appNormalize (.list [.obj [("link", .str "x"), ("name", .str "N"), ("snippet", .str "S")]])
      = [.obj [("url", .str "x"), ("title", .str "N"), ("content", .str "S")]] :=
  ⟨normRecords_eq_specExtract items h, rfl⟩

/-- Witness for C6 at the spec's alias-resolution example. -/
theorem c6_witness :
    normRecords [.obj [("link", .str "x"), ("name", .str "N"), ("snippet", .str "S")]]
      = [Json.obj [("link", .str "x"), ("name", .str "N"),
          ("snippet", .str "S")]].filterMap specExtractRecord ∧
    appNormalize (.list [.obj [("link", .str "x"), ("name", .str "N"), ("snippet", .str "S")]])
      = [.obj [("url", .str "x"), ("title", .str "N"), ("content", .str "S")]] :=
  c6_normalizer_field_aliases
    [.obj [("link", .str "x"), ("name", .str "N"), ("snippet", .str "S")]] (by decide)

/-- The per-record loop ignores the non-record elements entirely. -/
theorem normRecords_filter_obj :
    ∀ items : List Json, normRecords items = normRecords (items.filter Json.isObj)
  | [] => rfl
  | it :: rest => by
      cases it with
      | obj o =>
        rw [List.filter_cons_of_pos (by rfl)]
        simp only [normRecords]
        rw [normRecords_filter_obj rest]
      | null =>
        rw [List.filter_cons_of_neg (by simp [Json.isObj])]
        simp only [normRecords]
        exact normRecords_filter_obj rest
      | bool b =>
        rw [List.filter_cons_of_neg (by simp [Json.isObj])]
        simp only [normRecords]
        exact normRecords_filter_obj rest
      | num n =>
        rw [List.filter_cons_of_neg (by simp [Json.isObj])]
        simp only [normRecords]
        exact normRecords_filter_obj rest
      | str s =>
        rw [List.filter_cons_of_neg (by simp [Json.isObj])]
        simp only [normRecords]
        exact normRecords_filter_obj rest
      | list l =>
        rw [List.filter_cons_of_neg (by simp [Json.isObj])]
        simp only [normRecords]
        exact normRecords_filter_obj rest

/-- Every record the per-record loop emits is a three-field
`url`/`title`/`content` object with a truthy url. -/
theorem normRecords_shape :
    ∀ (items : List Json) (r : Json), r ∈ normRecords items →
      ∃ u t c, r = .obj [("url", u), ("title", t), ("content", c)] ∧ truthy u = true := by
  intro items
  induction items with
  | nil => intro r hr; simp [normRecords] at hr
  | cons it rest ih =>
    intro r hr
    cases it with
    | obj o =>
      simp only [normRecords] at hr
      split at hr
      · rcases List.mem_cons.mp hr with rfl | h'
        · exact ⟨_, _, _, rfl, by assumption⟩
        · exact ih r h'
      · exact ih r hr
    | null => exact ih r (by simpa [normRecords] using hr)
    | bool b => exact ih r (by simpa [normRecords] using hr)
    | num n => exact ih r (by simpa [normRecords] using hr)
    | str s => exact ih r (by simpa [normRecords] using hr)
    | list l => exact ih r (by simpa [normRecords] using hr)

/-- A record the spec-worded extraction emits is a three-string-field
object with a non-empty url. -/
theorem specExtract_shape {a r : Json} (h : specExtractRecord a = some r) :
    ∃ u t c, r = .obj [("url", .str u), ("title", .str t), ("content", .str c)] ∧ u ≠ "" := by
  cases a with
  | obj o =>
    simp only [specExtractRecord] at h
    by_cases hu : firstNonempty [strField o "url", strField o "link"] = ""
    · rw [if_pos hu] at h
      cases h
    · rw [if_neg hu] at h
      exact ⟨_, _, _, (Option.some.injEq _ _ ▸ h).symm, hu⟩
  | null => cases h
  | bool b => cases h
  | num n => cases h
  | str s => cases h
  | list l => cases h

/-- C10 fails in part: the normalizer does silently skip non-record
elements, but its output fields are the raw extracted values — a
numeric `url` passes the truthiness check and is emitted unchanged, so
the output does not always carry three string fields. -/
theorem c10_counterexample :
    appNormalize (.list [.obj [("url", .num 5)]])
      = [.obj [("url", .num 5), ("title", .str ""), ("content", .str "")]] ∧
    Json.isStr (recGet (.obj [("url", .num 5), ("title", .str ""), ("content", .str "")]) "url")
      = false :=
  ⟨rfl, rfl⟩

/-- C10 (amended): elements of the candidate sequence that are not
keyed records are silently skipped and the remaining ones are processed
in order; every output record is an object with exactly the three
fields `url`, `title`, `content` and a truthy url; and when the
candidate records are all-string (the provider shape), the three fields
are strings with `url` non-empty. -/
theorem c10_amended_output_shape :
    (∀ items : List Json, normRecords items = normRecords (items.filter Json.isObj)) ∧
    (∀ (d : Json) (r : Json), r ∈ appNormalize d →
       ∃ u t c, r = .obj [("url", u), ("title", t), ("content", c)] ∧ truthy u = true) ∧
    (∀ items : List Json, (∀ r ∈ items, strValuedB r = true) →
       ∀ r ∈ normRecords items,
         ∃ u t c, r = .obj [("url", .str u), ("title", .str t), ("content", .str c)]
           ∧ u ≠ "") := by
  refine ⟨normRecords_filter_obj, ?_, ?_⟩
  · intro d r hr
    exact normRecords_shape (appSelectItems d) r hr
  · intro items h r hr
    rw [normRecords_eq_specExtract items h] at hr
    obtain ⟨a, _, ha⟩ := List.mem_filterMap.mp hr
    exact specExtract_shape ha

/-- Witness for C10 (amended): a non-record element is skipped, and an
all-string record yields a three-string-field output with non-empty
url. -/
theorem c10_witness :
    normRecords [Json.num 3] = normRecords ([Json.num 3].filter Json.isObj) ∧
    (∃ u t c, (Json.obj [("url", Json.str "a"), ("title", Json.str ""), ("content", Json.str "")])
       = Json.obj [("url", Json.str u), ("title", Json.str t), ("content", Json.str c)]
       ∧ u ≠ "") :=
  ⟨c10_amended_output_shape.1 [Json.num 3],
   c10_amended_output_shape.2.2 [Json.obj [("url", Json.str "a")]] (by decide)
     (Json.obj [("url", Json.str "a"), ("title", Json.str ""), ("content", Json.str "")])
     (by
       have he : normRecords [Json.obj [("url", Json.str "a")]]
           = [Json.obj [("url", Json.str "a"), ("title", Json.str ""),
               ("content", Json.str "")]] := rfl
       rw [he]
       exact List.mem_singleton_self _)⟩

end NewsTools
